import Mathlib

/-!
Shallow embedding of the parking scraper (`src/main.rs`).

The program is a single polling loop. Its effectful parts are embedded
explicitly:

* `Utc::now()` samples become an explicit clock state (`ClockState`), a list
  of successive instants in seconds since the Unix epoch; each call to
  `Utc::now()` consumes the head of the list.
* The HTTP fetch becomes an input `Except String ApiResponse` (what the
  fetcher would return if invoked during that cycle).
* The InfluxDB write becomes an input boolean `writeOk` (whether the write
  would succeed); the code only logs its outcome.

All definitions follow the Rust source; names are kept where Lean allows.
-/

/-- One per-area record of the upstream response (`struct AreaData`):
`area_code: i32`, `area_free_space_num: i64`. -/
structure AreaData where
  area_code : Int
  area_free_space_num : Int
deriving DecidableEq, Repr

/-- The decoded upstream response (`struct ApiResponse`):
`success: bool`, `msparking_data: Vec<AreaData>`, `date: String`. -/
structure ApiResponse where
  success : Bool
  msparking_data : List AreaData
  date : String
deriving DecidableEq, Repr

/-- Clock state: the list of instants (seconds since the Unix epoch, UTC)
that successive `Utc::now()` calls will return. -/
abbrev ClockState : Type := List Nat

/-- One `Utc::now()` call: returns the next instant and the rest of the
clock state. An exhausted clock keeps returning `0`. -/
def sampleNow (s : ClockState) : Nat × ClockState :=
  (s.headD 0, s.tail)

/-- Hour component of a UTC instant converted to Asia/Shanghai (UTC+8),
as computed by `shanghai_time.hour()` in `is_in_maintenance_window`. -/
def shanghai_hour (t : Nat) : Nat :=
  (t / 3600 + 8) % 24

/-- Minute component of a UTC instant converted to Asia/Shanghai (UTC+8),
as computed by `shanghai_time.minute()` in `is_in_maintenance_window`. -/
def shanghai_minute (t : Nat) : Nat :=
  t / 60 % 60

/-- `fn is_in_maintenance_window() -> bool`, with the `Utc::now()` sample made
an explicit argument `t`:
`(hour == 23 && minute >= 50) || (hour == 0 && minute < 20)` on the
Shanghai-local hour and minute. -/
def is_in_maintenance_window (t : Nat) : Bool :=
  let hour := shanghai_hour t
  let minute := shanghai_minute t
  (hour == 23 && decide (50 ≤ minute)) || (hour == 0 && decide (minute < 20))

/-- The `match area.area_code` arm inside `create_data_point` choosing the
`location` tag. -/
def location_of (code : Int) : String :=
  if code = 12 then "SIP-B25-B26"
  else if code = 2 then "ZHONGMENG"
  else "Unknown"

/-- The time-series point built by `create_data_point`: measurement name, two
string tags, one integer field, and a nanosecond timestamp. -/
structure DataPoint where
  measurement : String
  area_code_tag : String
  location_tag : String
  free_spaces : Int
  timestamp : Nat
deriving DecidableEq, Repr

/-- `fn create_data_point(area: &AreaData) -> DataPoint`. The function takes
only the reading; it samples `Utc::now()` internally (`let now = Utc::now();`)
and stamps the point with `now.timestamp_nanos_opt().unwrap()`. The clock
state is threaded explicitly, so the result is the built point together with
the clock state after the internal sample. -/
def create_data_point (area : AreaData) (clock : ClockState) : DataPoint × ClockState :=
  let now := (sampleNow clock).1
  ({ measurement := "parking_spaces"
     area_code_tag := toString area.area_code
     location_tag := location_of area.area_code
     free_spaces := area.area_free_space_num
     timestamp := now * 1000000000 },
   (sampleNow clock).2)

/-- Mapping a list of readings to points (`.map(|area| create_data_point(area))`
or `.map(create_data_point)`): each call samples the clock once, in order. -/
def mapPoints : List AreaData → ClockState → List DataPoint × ClockState
  | [], s => ([], s)
  | a :: as, s =>
    let ps := create_data_point a s
    let rest := mapPoints as ps.2
    (ps.1 :: rest.1, rest.2)

/-- The observation cache `cached_data: HashMap<i32, AreaData>`, modelled as an
association list with at most one entry per key. -/
abbrev Cache : Type := List (Int × AreaData)

/-- The empty cache (`HashMap::new()`). -/
def emptyCache : Cache := []

/-- `HashMap::insert(k, v)`: replace the entry for `k` if present, otherwise
append it. -/
def insertC (k : Int) (v : AreaData) : Cache → Cache
  | [] => [(k, v)]
  | e :: rest => if e.1 = k then (k, v) :: rest else e :: insertC k v rest

/-- `HashMap` key lookup on the association-list model. -/
def lookupC (k : Int) : Cache → Option AreaData
  | [] => none
  | e :: rest => if e.1 = k then some e.2 else lookupC k rest

/-- `cached_data.values()`: the stored readings. -/
def valuesC (c : Cache) : List AreaData :=
  c.map Prod.snd

/-- `cached_data.is_empty()`. -/
def isEmptyC (c : Cache) : Bool :=
  match c with
  | [] => true
  | _ :: _ => false

/-- The cache-update step of the fetch branch, applied to each reading:
`if area.area_free_space_num > 0 { cached_data.insert(area.area_code, area.clone()); }`. -/
def upsertIfPositive (c : Cache) (a : AreaData) : Cache :=
  if 0 < a.area_free_space_num then insertC a.area_code a c else c

/-- The external inputs of one loop iteration: the clock samples the iteration
will observe, the result the fetcher would produce if invoked, and whether the
InfluxDB write would succeed. -/
structure CycleInput where
  clock : ClockState
  fetchResult : Except String ApiResponse
  writeOk : Bool

/-- The observable outcome of one loop iteration: the cache afterwards, the
remaining clock, whether `fetch_parking_data` was invoked, the batch of points
dispatched to `client.write` (`none` when no write was dispatched), and
whether a dispatched write failed (the code only logs this). -/
structure CycleResult where
  cache : Cache
  clock : ClockState
  fetched : Bool
  written : Option (List DataPoint)
  writeFailed : Bool
deriving Repr

/-- One iteration of the `loop` in `run_scraper`, after `interval.tick()`:
check the maintenance window; if in-window and the cache is non-empty, map the
cached readings to points and write them; otherwise fetch, and on a valid
non-empty response upsert positive readings into the cache, map all readings
to points and write them; on any fetch failure, unsuccessful response or empty
payload, do nothing further. `continue` is modelled by returning the
`CycleResult`. -/
def run_cycle (cache : Cache) (inp : CycleInput) : CycleResult :=
  let s := sampleNow inp.clock
  let using_cache := is_in_maintenance_window s.1
  if using_cache && !isEmptyC cache then
    let ps := mapPoints (valuesC cache) s.2
    { cache := cache, clock := ps.2, fetched := false,
      written := some ps.1, writeFailed := !inp.writeOk }
  else
    match inp.fetchResult with
    | Except.error _ =>
      { cache := cache, clock := s.2, fetched := true,
        written := none, writeFailed := false }
    | Except.ok data =>
      if !data.success then
        { cache := cache, clock := s.2, fetched := true,
          written := none, writeFailed := false }
      else if data.msparking_data.isEmpty then
        { cache := cache, clock := s.2, fetched := true,
          written := none, writeFailed := false }
      else
        let cache1 := data.msparking_data.foldl upsertIfPositive cache
        let ps := mapPoints data.msparking_data s.2
        { cache := cache1, clock := ps.2, fetched := true,
          written := some ps.1, writeFailed := !inp.writeOk }

/-- The scheduling loop of `run_scraper`, run over a list of per-tick inputs:
every tick is processed (no per-cycle outcome terminates the loop), each
cycle starting from the cache the previous cycle left behind. -/
def run_loop (cache : Cache) : List CycleInput → List CycleResult
  | [] => []
  | i :: is =>
    let r := run_cycle cache i
    r :: run_loop r.cache is

/-- A UTC instant whose Asia/Shanghai local time has the given hour and
minute (for hour < 24, minute < 60): used to exercise the maintenance-window
predicate at chosen local times. -/
def mkShanghai (hour minute : Nat) : Nat :=
  ((hour + 16) % 24) * 3600 + minute * 60

/-- A one-entry cache holding area 12 with 5 free spaces. -/
def wCache : Cache := [((12 : Int), AreaData.mk 12 5)]

/-- Scenario inputs: a tick at 23:55 Shanghai time with a fetcher that would
fail (it is not invoked in the maintenance branch). -/
def wInpB : CycleInput :=
  CycleInput.mk [mkShanghai 23 55, 999] (Except.error "maintenance") true

/-- The scenario-A response: `{success: true, data: [{12, 5}, {2, 0}]}`. -/
def wDataA : ApiResponse :=
  ApiResponse.mk true [AreaData.mk 12 5, AreaData.mk 2 0] "2024-01-01"

/-- Scenario inputs: a daytime tick whose fetch returns the scenario-A
response and whose write succeeds. -/
def wInpA : CycleInput :=
  CycleInput.mk [mkShanghai 12 0, 1, 2] (Except.ok wDataA) true

/-- Scenario inputs: like `wInpA` but the sink write fails. -/
def wInpAW : CycleInput :=
  CycleInput.mk [mkShanghai 12 0, 1, 2] (Except.ok wDataA) false

/-- Scenario inputs: a daytime tick whose fetch fails with a transport
error. -/
def wInpD : CycleInput :=
  CycleInput.mk [mkShanghai 12 0] (Except.error "transport") true

/-- Every entry of the cache stores a reading with a positive free-space
count. -/
def allPositive (c : Cache) : Prop :=
  ∀ e ∈ c, 0 < e.2.area_free_space_num

instance (c : Cache) : Decidable (allPositive c) :=
  inferInstanceAs (Decidable (∀ e ∈ c, 0 < e.2.area_free_space_num))

/-- The `find?` predicate picking readings for area `k` with a positive
count. -/
def posWithCode (k : Int) (r : AreaData) : Bool :=
  r.area_code == k && decide (0 < r.area_free_space_num)

/-- The association list is a faithful `HashMap` model: each entry's stored
reading carries the entry's key as its area code, and keys are distinct. -/
def wfCache (c : Cache) : Prop :=
  (∀ e ∈ c, e.2.area_code = e.1) ∧ (c.map Prod.fst).Nodup

/-! ### Helper lemmas about the cache model -/

lemma lookupC_insertC (k k' : Int) (v : AreaData) (c : Cache) :
    lookupC k (insertC k' v c) = if k' = k then some v else lookupC k c := by
  induction c with
  | nil => simp [insertC, lookupC]
  | cons e rest ih =>
    by_cases h1 : e.1 = k'
    · by_cases h2 : k' = k
      · simp [insertC, lookupC, h1, h2]
      · have h3 : ¬ e.1 = k := fun h => h2 (h1.symm.trans h)
        simp [insertC, lookupC, h1, h2, h3]
    · by_cases h2 : e.1 = k
      · have h3 : ¬ k' = k := fun h => h1 (h2.trans h.symm)
        have h4 : ¬ k = k' := fun h => h1 (h2.trans h)
        simp [insertC, lookupC, h1, h2, h3, h4]
      · simp [insertC, lookupC, h1, h2, ih]

lemma isEmptyC_eq_false {c : Cache} (h : c ≠ []) : isEmptyC c = false := by
  cases c with
  | nil => exact absurd rfl h
  | cons e rest => rfl

lemma run_loop_length (c : Cache) (is : List CycleInput) :
    (run_loop c is).length = is.length := by
  induction is generalizing c with
  | nil => rfl
  | cons i is ih => simp [run_loop, ih]

/-! ### Branch reductions of `run_cycle` -/

lemma run_cycle_serve (cache : Cache) (inp : CycleInput)
    (hm : is_in_maintenance_window (sampleNow inp.clock).1 = true)
    (hne : isEmptyC cache = false) :
    run_cycle cache inp =
      { cache := cache,
        clock := (mapPoints (valuesC cache) (sampleNow inp.clock).2).2,
        fetched := false,
        written := some (mapPoints (valuesC cache) (sampleNow inp.clock).2).1,
        writeFailed := !inp.writeOk } := by
  simp [run_cycle, hm, hne]

lemma cond_false_of_branch {cache : Cache} {inp : CycleInput}
    (hbr : is_in_maintenance_window (sampleNow inp.clock).1 = false ∨ cache = []) :
    (is_in_maintenance_window (sampleNow inp.clock).1 && !isEmptyC cache) = false := by
  rcases hbr with h | h
  · simp [h]
  · subst h; simp [isEmptyC]

lemma run_cycle_err (cache : Cache) (inp : CycleInput) (e : String)
    (hcond : (is_in_maintenance_window (sampleNow inp.clock).1 && !isEmptyC cache) = false)
    (hf : inp.fetchResult = Except.error e) :
    run_cycle cache inp =
      { cache := cache, clock := (sampleNow inp.clock).2, fetched := true,
        written := none, writeFailed := false } := by
  simp [run_cycle, hcond, hf]

lemma run_cycle_not_success (cache : Cache) (inp : CycleInput) (data : ApiResponse)
    (hcond : (is_in_maintenance_window (sampleNow inp.clock).1 && !isEmptyC cache) = false)
    (hf : inp.fetchResult = Except.ok data)
    (hs : data.success = false) :
    run_cycle cache inp =
      { cache := cache, clock := (sampleNow inp.clock).2, fetched := true,
        written := none, writeFailed := false } := by
  simp [run_cycle, hcond, hf, hs]

lemma run_cycle_empty_data (cache : Cache) (inp : CycleInput) (data : ApiResponse)
    (hcond : (is_in_maintenance_window (sampleNow inp.clock).1 && !isEmptyC cache) = false)
    (hf : inp.fetchResult = Except.ok data)
    (hs : data.success = true)
    (he : data.msparking_data = []) :
    run_cycle cache inp =
      { cache := cache, clock := (sampleNow inp.clock).2, fetched := true,
        written := none, writeFailed := false } := by
  simp [run_cycle, hcond, hf, hs, he]

lemma run_cycle_ok (cache : Cache) (inp : CycleInput) (data : ApiResponse)
    (hcond : (is_in_maintenance_window (sampleNow inp.clock).1 && !isEmptyC cache) = false)
    (hf : inp.fetchResult = Except.ok data)
    (hs : data.success = true)
    (hne : data.msparking_data ≠ []) :
    run_cycle cache inp =
      { cache := data.msparking_data.foldl upsertIfPositive cache,
        clock := (mapPoints data.msparking_data (sampleNow inp.clock).2).2,
        fetched := true,
        written := some (mapPoints data.msparking_data (sampleNow inp.clock).2).1,
        writeFailed := !inp.writeOk } := by
  have he : data.msparking_data.isEmpty = false := by
    cases h : data.msparking_data with
    | nil => exact absurd h hne
    | cons a as => rfl
  simp [run_cycle, hcond, hf, hs, he]

lemma run_cycle_cache_eq (cache : Cache) (inp : CycleInput) :
    (run_cycle cache inp).cache = cache
      ∨ ∃ data, inp.fetchResult = Except.ok data
          ∧ (run_cycle cache inp).cache
              = data.msparking_data.foldl upsertIfPositive cache := by
  by_cases hcond : (is_in_maintenance_window (sampleNow inp.clock).1 && !isEmptyC cache) = true
  · left
    simp [run_cycle, hcond]
  · rw [Bool.not_eq_true] at hcond
    cases hf : inp.fetchResult with
    | error e => left; rw [run_cycle_err cache inp e hcond hf]
    | ok data =>
      by_cases hs : data.success = true
      · by_cases he : data.msparking_data = []
        · left; rw [run_cycle_empty_data cache inp data hcond hf hs he]
        · right
          exact ⟨data, rfl, by rw [run_cycle_ok cache inp data hcond hf hs he]⟩
      · left
        rw [Bool.not_eq_true] at hs
        rw [run_cycle_not_success cache inp data hcond hf hs]

/-! ### The cache after a sequence of upserts -/

lemma lookupC_foldl_upsert (rs : List AreaData) (c : Cache) (k : Int) :
    lookupC k (rs.foldl upsertIfPositive c) =
      (rs.reverse.find? (posWithCode k)).elim (lookupC k c) some := by
  induction rs generalizing c with
  | nil => simp
  | cons r rs ih =>
    rw [List.foldl_cons, ih, List.reverse_cons, List.find?_append]
    cases hfind : rs.reverse.find? (posWithCode k) with
    | some v => simp [Option.or]
    | none =>
      simp only [Option.or]
      by_cases hc : r.area_code = k
      · have hbeq : (r.area_code == k) = true := by simp [hc]
        by_cases hp : 0 < r.area_free_space_num
        · simp [posWithCode, hc, hbeq, hp, upsertIfPositive, lookupC_insertC, List.find?]
        · simp [posWithCode, hc, hbeq, hp, upsertIfPositive, List.find?]
      · have hbeq : (r.area_code == k) = false := by simp [hc]
        by_cases hp : 0 < r.area_free_space_num
        · simp [posWithCode, hc, hbeq, hp, upsertIfPositive, lookupC_insertC, List.find?]
        · simp [posWithCode, hc, hbeq, hp, upsertIfPositive, List.find?]

/-! ### All cached readings are positive -/

lemma allPositive_insertC (k : Int) (v : AreaData) (hv : 0 < v.area_free_space_num) :
    ∀ c : Cache, allPositive c → allPositive (insertC k v c) := by
  intro c
  induction c with
  | nil =>
    intro _ e he
    simp [insertC] at he
    rw [he]
    exact hv
  | cons f rest ih =>
    intro hc
    have hrest : allPositive rest := fun x hx => hc x (List.mem_cons_of_mem f hx)
    intro e he
    by_cases h : f.1 = k
    · simp only [insertC, h, if_pos] at he
      rcases List.mem_cons.mp he with he | he
      · rw [he]; exact hv
      · exact hc e (List.mem_cons_of_mem f he)
    · simp only [insertC, h, if_neg, ite_false] at he
      rcases List.mem_cons.mp he with he | he
      · rw [he]; exact hc f (List.mem_cons_self f rest)
      · exact ih hrest e he

lemma allPositive_upsert {c : Cache} (hc : allPositive c) (a : AreaData) :
    allPositive (upsertIfPositive c a) := by
  unfold upsertIfPositive
  by_cases hp : 0 < a.area_free_space_num
  · simp only [hp, if_pos]
    exact allPositive_insertC a.area_code a hp c hc
  · simpa [hp] using hc

lemma allPositive_foldl {c : Cache} (hc : allPositive c) (rs : List AreaData) :
    allPositive (rs.foldl upsertIfPositive c) := by
  induction rs generalizing c with
  | nil => exact hc
  | cons r rs ih => exact ih (allPositive_upsert hc r)

/-! ### Well-formedness of the association-list cache -/

lemma mem_keys_insertC (k x : Int) (v : AreaData) :
    ∀ c : Cache, (x ∈ (insertC k v c).map Prod.fst ↔ x = k ∨ x ∈ c.map Prod.fst) := by
  intro c
  induction c with
  | nil => simp [insertC]
  | cons e rest ih =>
    by_cases h : e.1 = k
    · simp only [insertC, h, if_pos, List.map_cons, List.mem_cons]
      tauto
    · simp only [insertC, h, if_neg, ite_false, List.map_cons, List.mem_cons, ih]
      tauto

lemma wf_insertC (k : Int) (v : AreaData) (hv : v.area_code = k) :
    ∀ c : Cache, wfCache c → wfCache (insertC k v c) := by
  intro c
  induction c with
  | nil =>
    intro _
    constructor
    · intro e he
      simp [insertC] at he
      rw [he]
      exact hv
    · simp [insertC]
  | cons e rest ih =>
    intro hc
    obtain ⟨hcode, hnodup⟩ := hc
    rw [List.map_cons] at hnodup
    have hnd1 : e.1 ∉ rest.map Prod.fst := (List.nodup_cons.mp hnodup).1
    have hnd2 : (rest.map Prod.fst).Nodup := (List.nodup_cons.mp hnodup).2
    have hrest : wfCache rest :=
      ⟨fun x hx => hcode x (List.mem_cons_of_mem e hx), hnd2⟩
    by_cases h : e.1 = k
    · have heq : insertC k v (e :: rest) = (k, v) :: rest := by
        simp [insertC, h]
      rw [heq]
      constructor
      · intro x hx
        rcases List.mem_cons.mp hx with hx | hx
        · rw [hx]; exact hv
        · exact hcode x (List.mem_cons_of_mem e hx)
      · rw [List.map_cons]
        exact List.nodup_cons.mpr ⟨h ▸ hnd1, hnd2⟩
    · have heq : insertC k v (e :: rest) = e :: insertC k v rest := by
        simp [insertC, h]
      rw [heq]
      obtain ⟨ih1, ih2⟩ := ih hrest
      constructor
      · intro x hx
        rcases List.mem_cons.mp hx with hx | hx
        · rw [hx]; exact hcode e (List.mem_cons_self e rest)
        · exact ih1 x hx
      · rw [List.map_cons]
        refine List.nodup_cons.mpr ⟨?_, ih2⟩
        intro hmem
        rcases (mem_keys_insertC k e.1 v rest).mp hmem with hx | hx
        · exact h hx
        · exact hnd1 hx

lemma wf_upsert {c : Cache} (h : wfCache c) (a : AreaData) :
    wfCache (upsertIfPositive c a) := by
  unfold upsertIfPositive
  by_cases hp : 0 < a.area_free_space_num
  · simp only [hp, if_pos]
    exact wf_insertC a.area_code a rfl c h
  · simpa [hp] using h

lemma wf_foldl {c : Cache} (h : wfCache c) (rs : List AreaData) :
    wfCache (rs.foldl upsertIfPositive c) := by
  induction rs generalizing c with
  | nil => exact h
  | cons r rs ih => exact ih (wf_upsert h r)

lemma wf_empty : wfCache emptyCache :=
  ⟨by simp [emptyCache], by simp [emptyCache]⟩

lemma lookupC_mem {k : Int} {v : AreaData} :
    ∀ {c : Cache}, lookupC k c = some v → (k, v) ∈ c := by
  intro c
  induction c with
  | nil => intro h; simp [lookupC] at h
  | cons e rest ih =>
    intro h
    by_cases he : e.1 = k
    · simp only [lookupC, he, if_pos] at h
      have hev : e = (k, v) := Prod.ext he (Option.some.inj h)
      rw [← hev]
      exact List.mem_cons_self e rest
    · simp only [lookupC, he, if_neg, ite_false] at h
      exact List.mem_cons_of_mem e (ih h)

lemma mem_lookupC (k : Int) (v : AreaData) :
    ∀ c : Cache, wfCache c → (k, v) ∈ c → lookupC k c = some v := by
  intro c
  induction c with
  | nil => intro _ h; simp at h
  | cons e rest ih =>
    intro hwf h
    obtain ⟨hcode, hnodup⟩ := hwf
    rw [List.map_cons] at hnodup
    have hnd1 : e.1 ∉ rest.map Prod.fst := (List.nodup_cons.mp hnodup).1
    have hnd2 : (rest.map Prod.fst).Nodup := (List.nodup_cons.mp hnodup).2
    rcases List.mem_cons.mp h with h | h
    · rw [← h]
      simp [lookupC]
    · have hk : k ∈ rest.map Prod.fst := List.mem_map_of_mem Prod.fst h
      have hek : ¬ e.1 = k := fun hek => hnd1 (hek ▸ hk)
      simp only [lookupC, hek, if_neg, ite_false]
      exact ih ⟨fun x hx => hcode x (List.mem_cons_of_mem e hx), hnd2⟩ h

lemma mem_valuesC_iff {c : Cache} (hwf : wfCache c) (a : AreaData) :
    a ∈ valuesC c ↔ lookupC a.area_code c = some a := by
  constructor
  · intro h
    rcases List.mem_map.mp h with ⟨e, he, hea⟩
    have hc : e.2.area_code = e.1 := hwf.1 e he
    have hmem : (a.area_code, a) ∈ c := by
      rw [← hea, hc]
      simpa using he
    exact mem_lookupC a.area_code a c hwf hmem
  · intro h
    exact List.mem_map.mpr ⟨(a.area_code, a), lookupC_mem h, rfl⟩

/-! ### Claim theorems -/

/-- C1: the maintenance-window predicate is true exactly when the instant,
converted to UTC+8, has (hour = 23 and minute ≥ 50) or (hour = 0 and
minute < 20); the boundaries behave as (23,49) false, (23,50) true,
(0,19) true, (0,20) false, and the full hour/minute table matches. -/
theorem is_in_maintenance_window_spec :
    (∀ t : Nat, is_in_maintenance_window t = true ↔
      ((shanghai_hour t = 23 ∧ 50 ≤ shanghai_minute t) ∨
       (shanghai_hour t = 0 ∧ shanghai_minute t < 20)))
    ∧ (∀ h < 24, ∀ m < 60,
        is_in_maintenance_window (mkShanghai h m)
          = ((h == 23 && decide (50 ≤ m)) || (h == 0 && decide (m < 20))))
    ∧ is_in_maintenance_window (mkShanghai 23 49) = false
    ∧ is_in_maintenance_window (mkShanghai 23 50) = true
    ∧ is_in_maintenance_window (mkShanghai 0 19) = true
    ∧ is_in_maintenance_window (mkShanghai 0 20) = false := by
  refine ⟨?_, by decide, by decide, by decide, by decide, by decide⟩
  intro t
  simp [is_in_maintenance_window, Bool.or_eq_true, Bool.and_eq_true,
    decide_eq_true_iff, beq_iff_eq]

/-- Witness for C1 at the concrete local time 23:55. -/
theorem is_in_maintenance_window_spec_witness :
    (23 : Nat) < 24 ∧ (55 : Nat) < 60 ∧
      is_in_maintenance_window (mkShanghai 23 55)
        = (((23 : Nat) == 23 && decide (50 ≤ (55 : Nat)))
            || ((23 : Nat) == 0 && decide ((55 : Nat) < 20))) :=
  ⟨by decide, by decide,
   is_in_maintenance_window_spec.2.1 23 (by decide) 55 (by decide)⟩

/-- C2: on a tick inside the maintenance window with a non-empty cache, the
fetcher is not invoked; every cached reading is mapped to a point, the batch
is dispatched, and the cycle ends with the cache unchanged. -/
theorem maintenance_branch_serves_cache :
    ∀ (cache : Cache) (inp : CycleInput),
      is_in_maintenance_window (sampleNow inp.clock).1 = true →
      cache ≠ [] →
      (run_cycle cache inp).fetched = false
        ∧ (run_cycle cache inp).written
            = some (mapPoints (valuesC cache) (sampleNow inp.clock).2).1
        ∧ (run_cycle cache inp).cache = cache := by
  intro cache inp hm hne
  rw [run_cycle_serve cache inp hm (isEmptyC_eq_false hne)]
  exact ⟨rfl, rfl, rfl⟩

/-- Witness for C2: scenario B — 23:55 local, cache holds area 12 with 5 free
spaces, the fetcher (which would fail) is never consulted. -/
theorem maintenance_branch_serves_cache_witness :
    is_in_maintenance_window (sampleNow wInpB.clock).1 = true
    ∧ wCache ≠ []
    ∧ ((run_cycle wCache wInpB).fetched = false
       ∧ (run_cycle wCache wInpB).written
           = some (mapPoints (valuesC wCache) (sampleNow wInpB.clock).2).1
       ∧ (run_cycle wCache wInpB).cache = wCache) :=
  ⟨by decide, by decide,
   maintenance_branch_serves_cache wCache wInpB (by decide) (by decide)⟩

/-- C3: on a cycle that fetches and gets a successful response with at least
one reading, the cache becomes the fold of `upsertIfPositive` over all
readings (so positive readings are upserted and non-positive ones are not),
and every returned reading — including zero/negative ones — is mapped to a
point in the dispatched batch. -/
theorem fetch_success_updates_cache_and_writes :
    ∀ (cache : Cache) (inp : CycleInput) (data : ApiResponse),
      (is_in_maintenance_window (sampleNow inp.clock).1 = false ∨ cache = []) →
      inp.fetchResult = Except.ok data →
      data.success = true →
      data.msparking_data ≠ [] →
      (run_cycle cache inp).fetched = true
        ∧ (run_cycle cache inp).cache
            = data.msparking_data.foldl upsertIfPositive cache
        ∧ (run_cycle cache inp).written
            = some (mapPoints data.msparking_data (sampleNow inp.clock).2).1
        ∧ (∀ k : Int,
            lookupC k (run_cycle cache inp).cache
              = (data.msparking_data.reverse.find? (posWithCode k)).elim
                  (lookupC k cache) some) := by
  intro cache inp data hbr hf hs hne
  rw [run_cycle_ok cache inp data (cond_false_of_branch hbr) hf hs hne]
  refine ⟨rfl, rfl, rfl, ?_⟩
  intro k
  exact lookupC_foldl_upsert data.msparking_data cache k

/-- Witness for C3: scenario A — `{success: true, data: [{12,5},{2,0}]}`
yields two written points and a cache containing only area 12 with 5. -/
theorem fetch_success_updates_cache_and_writes_witness :
    is_in_maintenance_window (sampleNow wInpA.clock).1 = false
    ∧ wInpA.fetchResult = Except.ok wDataA
    ∧ wDataA.success = true
    ∧ wDataA.msparking_data ≠ []
    ∧ ((run_cycle emptyCache wInpA).fetched = true
       ∧ (run_cycle emptyCache wInpA).cache
           = wDataA.msparking_data.foldl upsertIfPositive emptyCache
       ∧ (run_cycle emptyCache wInpA).written
           = some (mapPoints wDataA.msparking_data (sampleNow wInpA.clock).2).1
       ∧ (∀ k : Int,
           lookupC k (run_cycle emptyCache wInpA).cache
             = (wDataA.msparking_data.reverse.find? (posWithCode k)).elim
                 (lookupC k emptyCache) some))
    ∧ (run_cycle emptyCache wInpA).cache = [((12 : Int), AreaData.mk 12 5)]
    ∧ ((run_cycle emptyCache wInpA).written.getD []).length = 2 :=
  ⟨by decide, rfl, rfl, by decide,
   fetch_success_updates_cache_and_writes emptyCache wInpA wDataA
     (Or.inl (by decide)) rfl rfl (by decide),
   by decide, by decide⟩

/-- C4: upserting a non-positive reading is a no-op on the whole cache (so
any existing entry survives untouched), upserting a positive reading always
overwrites the entry for its area code, and the invariant "all cached
readings are positive" is preserved by every cycle. -/
theorem cache_entries_positive :
    (∀ (c : Cache) (a : AreaData),
        a.area_free_space_num ≤ 0 → upsertIfPositive c a = c)
    ∧ (∀ (c : Cache) (a : AreaData),
        0 < a.area_free_space_num →
          lookupC a.area_code (upsertIfPositive c a) = some a)
    ∧ (∀ (c : Cache) (inp : CycleInput),
        allPositive c → allPositive (run_cycle c inp).cache) := by
  refine ⟨?_, ?_, ?_⟩
  · intro c a h
    unfold upsertIfPositive
    rw [if_neg (not_lt.mpr h)]
  · intro c a h
    unfold upsertIfPositive
    rw [if_pos h, lookupC_insertC]
    simp
  · intro c inp h
    rcases run_cycle_cache_eq c inp with heq | ⟨data, hf, heq⟩
    · rw [heq]; exact h
    · rw [heq]; exact allPositive_foldl h data.msparking_data

/-- Witness for C4: a zero reading for area 2 leaves the cache alone, a
positive reading for area 12 overwrites, and a cycle preserves positivity. -/
theorem cache_entries_positive_witness :
    ((AreaData.mk 2 0).area_free_space_num ≤ 0
      ∧ upsertIfPositive wCache (AreaData.mk 2 0) = wCache)
    ∧ (0 < (AreaData.mk 12 7).area_free_space_num
      ∧ lookupC (AreaData.mk 12 7).area_code
          (upsertIfPositive wCache (AreaData.mk 12 7)) = some (AreaData.mk 12 7))
    ∧ (allPositive wCache ∧ allPositive (run_cycle wCache wInpB).cache) :=
  ⟨⟨by decide, cache_entries_positive.1 wCache (AreaData.mk 2 0) (by decide)⟩,
   ⟨by decide, cache_entries_positive.2.1 wCache (AreaData.mk 12 7) (by decide)⟩,
   ⟨by decide, cache_entries_positive.2.2 wCache wInpB (by decide)⟩⟩

/-- C5: on a cycle that fetches and fails (transport/decode error,
`success == false`, or empty reading list), nothing is written, the cache is
exactly what it was, and the loop goes on to process every remaining tick. -/
theorem failed_cycle_no_effect :
    ∀ (cache : Cache) (inp : CycleInput),
      (is_in_maintenance_window (sampleNow inp.clock).1 = false ∨ cache = []) →
      ((∃ e, inp.fetchResult = Except.error e)
        ∨ ∃ data, inp.fetchResult = Except.ok data
            ∧ (data.success = false ∨ data.msparking_data = [])) →
      (run_cycle cache inp).written = none
        ∧ (run_cycle cache inp).cache = cache
        ∧ ∀ rest : List CycleInput,
            (run_loop cache (inp :: rest)).length = rest.length + 1 := by
  intro cache inp hbr hfail
  have hcond := cond_false_of_branch hbr
  have hres : run_cycle cache inp =
      { cache := cache, clock := (sampleNow inp.clock).2, fetched := true,
        written := none, writeFailed := false } := by
    rcases hfail with ⟨e, hf⟩ | ⟨data, hf, hcase⟩
    · exact run_cycle_err cache inp e hcond hf
    · rcases hcase with hs | he
      · exact run_cycle_not_success cache inp data hcond hf hs
      · cases hsucc : data.success with
        | false => exact run_cycle_not_success cache inp data hcond hf hsucc
        | true => exact run_cycle_empty_data cache inp data hcond hf hsucc he
  rw [hres]
  refine ⟨rfl, rfl, ?_⟩
  intro rest
  simp [run_loop, run_loop_length]

/-- Witness for C5: scenario D — a transport failure at a daytime tick leaves
the cache as it was, writes nothing, and the loop still processes the tick. -/
theorem failed_cycle_no_effect_witness :
    is_in_maintenance_window (sampleNow wInpD.clock).1 = false
    ∧ wInpD.fetchResult = Except.error "transport"
    ∧ (run_cycle wCache wInpD).written = none
    ∧ (run_cycle wCache wInpD).cache = wCache
    ∧ (run_loop wCache [wInpD]).length = ([] : List CycleInput).length + 1 :=
  ⟨by decide, rfl,
   (failed_cycle_no_effect wCache wInpD (Or.inl (by decide))
     (Or.inl ⟨"transport", rfl⟩)).1,
   (failed_cycle_no_effect wCache wInpD (Or.inl (by decide))
     (Or.inl ⟨"transport", rfl⟩)).2.1,
   (failed_cycle_no_effect wCache wInpD (Or.inl (by decide))
     (Or.inl ⟨"transport", rfl⟩)).2.2 []⟩

/-- C6: the cache a cycle leaves behind does not depend on whether the sink
write succeeds, and after a successful validated fetch with a failing write
the cache still equals the fold of the upserts (no rollback). -/
theorem write_failure_no_rollback :
    (∀ (cache : Cache) (clk : ClockState) (fr : Except String ApiResponse)
        (w₁ w₂ : Bool),
        (run_cycle cache (CycleInput.mk clk fr w₁)).cache
          = (run_cycle cache (CycleInput.mk clk fr w₂)).cache)
    ∧ (∀ (cache : Cache) (inp : CycleInput) (data : ApiResponse),
        (is_in_maintenance_window (sampleNow inp.clock).1 = false ∨ cache = []) →
        inp.fetchResult = Except.ok data →
        data.success = true →
        data.msparking_data ≠ [] →
        inp.writeOk = false →
        (run_cycle cache inp).writeFailed = true
          ∧ (run_cycle cache inp).cache
              = data.msparking_data.foldl upsertIfPositive cache) := by
  constructor
  · intro cache clk fr w₁ w₂
    by_cases hcond : (is_in_maintenance_window (sampleNow clk).1 && !isEmptyC cache) = true
    · simp [run_cycle, hcond]
    · rw [Bool.not_eq_true] at hcond
      cases fr with
      | error e =>
        rw [run_cycle_err cache (CycleInput.mk clk (Except.error e) w₁) e hcond rfl,
            run_cycle_err cache (CycleInput.mk clk (Except.error e) w₂) e hcond rfl]
      | ok data =>
        by_cases hs : data.success = true
        · by_cases he : data.msparking_data = []
          · rw [run_cycle_empty_data cache (CycleInput.mk clk (Except.ok data) w₁) data hcond rfl hs he,
                run_cycle_empty_data cache (CycleInput.mk clk (Except.ok data) w₂) data hcond rfl hs he]
          · rw [run_cycle_ok cache (CycleInput.mk clk (Except.ok data) w₁) data hcond rfl hs he,
                run_cycle_ok cache (CycleInput.mk clk (Except.ok data) w₂) data hcond rfl hs he]
        · rw [Bool.not_eq_true] at hs
          rw [run_cycle_not_success cache (CycleInput.mk clk (Except.ok data) w₁) data hcond rfl hs,
              run_cycle_not_success cache (CycleInput.mk clk (Except.ok data) w₂) data hcond rfl hs]
  · intro cache inp data hbr hf hs hne hw
    rw [run_cycle_ok cache inp data (cond_false_of_branch hbr) hf hs hne]
    exact ⟨by simp [hw], rfl⟩

/-- Witness for C6: scenario A with a failing write — the cache still gains
area 12 and the failure is only recorded, plus write-independence at the same
concrete inputs. -/
theorem write_failure_no_rollback_witness :
    is_in_maintenance_window (sampleNow wInpAW.clock).1 = false
    ∧ wInpAW.fetchResult = Except.ok wDataA
    ∧ wDataA.success = true
    ∧ wDataA.msparking_data ≠ []
    ∧ wInpAW.writeOk = false
    ∧ ((run_cycle emptyCache wInpAW).writeFailed = true
       ∧ (run_cycle emptyCache wInpAW).cache
           = wDataA.msparking_data.foldl upsertIfPositive emptyCache)
    ∧ (run_cycle emptyCache (CycleInput.mk [mkShanghai 12 0, 1, 2] (Except.ok wDataA) false)).cache
        = (run_cycle emptyCache (CycleInput.mk [mkShanghai 12 0, 1, 2] (Except.ok wDataA) true)).cache :=
  ⟨by decide, rfl, rfl, by decide, rfl,
   write_failure_no_rollback.2 emptyCache wInpAW wDataA (Or.inl (by decide))
     rfl rfl (by decide) rfl,
   write_failure_no_rollback.1 emptyCache [mkShanghai 12 0, 1, 2]
     (Except.ok wDataA) false true⟩

/-- C7 (counterexample): the point mapper takes no timestamp argument — it
derives `now` internally. Two invocations with the identical (sole) reading
argument but different ambient clock states produce different points, so the
timestamp is not a function of the arguments the caller passes. -/
theorem create_data_point_clock_dependent :
    (create_data_point (AreaData.mk 12 5) [1]).1
      ≠ (create_data_point (AreaData.mk 12 5) [2]).1 := by
  decide

/-- C7 (amended): the point mapper samples the clock internally and is
deterministic in the reading together with the sampled `now`: equal clock
samples give identical points, the timestamp is exactly the sample (in
nanoseconds), and tags and field depend only on the reading. -/
theorem create_data_point_deterministic :
    ∀ (a : AreaData) (s₁ s₂ : ClockState),
      (sampleNow s₁).1 = (sampleNow s₂).1 →
        ((create_data_point a s₁).1 = (create_data_point a s₂).1
          ∧ (create_data_point a s₁).1.timestamp = (sampleNow s₁).1 * 1000000000
          ∧ (create_data_point a s₁).1.area_code_tag = toString a.area_code
          ∧ (create_data_point a s₁).1.location_tag = location_of a.area_code
          ∧ (create_data_point a s₁).1.free_spaces = a.area_free_space_num) := by
  intro a s₁ s₂ h
  refine ⟨?_, rfl, rfl, rfl, rfl⟩
  simp [create_data_point, h]

/-- Witness for the amended C7 at clock states with equal first samples. -/
theorem create_data_point_deterministic_witness :
    (sampleNow [7]).1 = (sampleNow ([7, 9] : ClockState)).1
    ∧ ((create_data_point (AreaData.mk 12 5) [7]).1
          = (create_data_point (AreaData.mk 12 5) [7, 9]).1
        ∧ (create_data_point (AreaData.mk 12 5) [7]).1.timestamp
            = (sampleNow ([7] : ClockState)).1 * 1000000000
        ∧ (create_data_point (AreaData.mk 12 5) [7]).1.area_code_tag
            = toString (AreaData.mk 12 5).area_code
        ∧ (create_data_point (AreaData.mk 12 5) [7]).1.location_tag
            = location_of (AreaData.mk 12 5).area_code
        ∧ (create_data_point (AreaData.mk 12 5) [7]).1.free_spaces
            = (AreaData.mk 12 5).area_free_space_num) :=
  ⟨rfl, create_data_point_deterministic (AreaData.mk 12 5) [7] [7, 9] rfl⟩

/-- C8: feeding a sequence of readings through the cache upsert and taking a
snapshot yields exactly the readings that are the most recent positive entry
for their area code — lookup finds the last positive reading per code, and a
reading is in the snapshot iff it is that last positive reading. -/
theorem cache_upsert_roundtrip :
    ∀ readings : List AreaData,
      (∀ k : Int,
        lookupC k (readings.foldl upsertIfPositive emptyCache)
          = readings.reverse.find? (posWithCode k))
      ∧ (∀ a : AreaData,
          a ∈ valuesC (readings.foldl upsertIfPositive emptyCache)
            ↔ readings.reverse.find? (posWithCode a.area_code) = some a) := by
  intro readings
  constructor
  · intro k
    rw [lookupC_foldl_upsert]
    cases hf : readings.reverse.find? (posWithCode k) <;>
      simp [emptyCache, lookupC]
  · intro a
    rw [mem_valuesC_iff (wf_foldl wf_empty readings) a, lookupC_foldl_upsert]
    cases hf : readings.reverse.find? (posWithCode a.area_code) <;>
      simp [emptyCache, lookupC]

/-- C9: the location tag is "SIP-B25-B26" for area code 12, "ZHONGMENG" for
area code 2, and "Unknown" for every other code; the lookup is a total
function of the reading. -/
theorem create_data_point_location_total :
    ∀ (a : AreaData) (s : ClockState),
      (create_data_point a s).1.location_tag
        = (if a.area_code = 12 then "SIP-B25-B26"
           else if a.area_code = 2 then "ZHONGMENG"
           else "Unknown") := by
  intro a s
  rfl

/-- C10: a cycle never removes a cache entry: a key present before the cycle
is present after it, holding either the old reading or a positive reading for
that key coming from the cycle's fetched response. -/
theorem cache_entries_never_removed :
    ∀ (cache : Cache) (inp : CycleInput) (k : Int) (v : AreaData),
      lookupC k cache = some v →
      ∃ v', lookupC k (run_cycle cache inp).cache = some v'
        ∧ (v' = v
            ∨ (v'.area_code = k ∧ 0 < v'.area_free_space_num
                ∧ ∃ data, inp.fetchResult = Except.ok data
                    ∧ v' ∈ data.msparking_data)) := by
  intro cache inp k v hv
  rcases run_cycle_cache_eq cache inp with heq | ⟨data, hf, heq⟩
  · exact ⟨v, by rw [heq]; exact hv, Or.inl rfl⟩
  · rw [heq, lookupC_foldl_upsert]
    cases hfind : data.msparking_data.reverse.find? (posWithCode k) with
    | none =>
      exact ⟨v, by simpa using hv, Or.inl rfl⟩
    | some r =>
      have hp := List.find?_some hfind
      have hm := List.mem_reverse.mp (List.mem_of_find?_eq_some hfind)
      simp only [posWithCode, Bool.and_eq_true, beq_iff_eq,
        decide_eq_true_eq] at hp
      exact ⟨r, by simp, Or.inr ⟨hp.1, hp.2, data, hf, hm⟩⟩

/-- Witness for C10: area 12 stays cached across a failed-fetch cycle. -/
theorem cache_entries_never_removed_witness :
    lookupC 12 wCache = some (AreaData.mk 12 5)
    ∧ ∃ v', lookupC 12 (run_cycle wCache wInpD).cache = some v'
        ∧ (v' = AreaData.mk 12 5
            ∨ (v'.area_code = 12 ∧ 0 < v'.area_free_space_num
                ∧ ∃ data, wInpD.fetchResult = Except.ok data
                    ∧ v' ∈ data.msparking_data)) :=
  ⟨by decide,
   cache_entries_never_removed wCache wInpD 12 (AreaData.mk 12 5) (by decide)⟩
